import Mathlib

/-!
Verification of the yark archive synchronization engine.

The core engine lives in `yark/archive.py`; the definitions below are a
shallow embedding of its data model and operations.  Components whose
source module is not part of the archive core (`video.py`, `config.py`)
are modelled from the specification's contracts, as marked on each
definition.
-/

namespace Yark

/-- Modelled from the spec: `video.py` (the `Element` class, the spec's
`TimeTrackedValue`) is not under `src/`.  Per §3/§4.1 it is an ordered,
append-only sequence of `(timestamp, value)` pairs; a `none` timestamp
means "now". -/
structure Element (T : Type) where
  history : List (Option Nat × T)
deriving DecidableEq

/-- Modelled from the spec: `current()` returns the value of the last
entry (`none` when the history is empty). -/
def Element.current {T : Type} (e : Element T) : Option T :=
  e.history.getLast?.map (fun p => p.2)

/-- Modelled from the spec §4.1: `update(timestamp, value)` appends a new
pair iff `value` differs from `current()`. -/
def Element.update {T : Type} [DecidableEq T] (e : Element T)
    (timestamp : Option Nat) (value : T) : Element T :=
  if e.current = some value then e else ⟨e.history ++ [(timestamp, value)]⟩

/-- Modelled from the spec: `Element.new` seeds a history with a single
entry at "now". -/
def Element.seed {T : Type} (value : T) : Element T :=
  ⟨[(none, value)]⟩

/-- Modelled from the spec §6: one raw snapshot entry carries id, title,
description, view count, like count, thumbnail/format list and an upload
recency indicator.  Only emptiness of the format list is branched on. -/
structure RawEntry where
  id : String
  title : String
  description : String
  views : Nat
  likes : Nat
  thumbnail : String
  formats : Option (List Unit)
  uploaded : Nat
deriving DecidableEq

/-- Modelled from the spec: `video.py` is not under `src/`.  Per §3 an
Item is an identity plus time-tracked attributes, a deleted flag, the
`downloaded()` accessor (§6, here a plain flag) and the
"confirmed present during this pass" marker used by deletion detection
(`known_not_deleted` in the source). -/
structure Video where
  id : String
  uploaded : Nat
  title : Element String
  description : Element String
  views : Element Nat
  likes : Element Nat
  thumbnail : Element String
  deleted : Element Bool
  downloaded : Bool
  known_not_deleted : Bool
deriving DecidableEq

/-- Modelled from the spec §4.2: updating an existing Item calls `update`
on each tracked attribute with the snapshot's corresponding field at
timestamp "now", and marks the Item confirmed present.  The comment
subsystem is outside the core (§1) and is not modelled. -/
def Video.update (v : Video) (entry : RawEntry) : Video :=
  { v with
    title := v.title.update none entry.title
    description := v.description.update none entry.description
    views := v.views.update none entry.views
    likes := v.likes.update none entry.likes
    thumbnail := v.thumbnail.update none entry.thumbnail
    known_not_deleted := true }

/-- Modelled from the spec §4.2: a newly discovered Item seeds each
attribute's history with a single entry at "now"; it is confirmed
present and its content is not yet downloaded. -/
def Video.new (entry : RawEntry) : Video :=
  { id := entry.id
    uploaded := entry.uploaded
    title := Element.seed entry.title
    description := Element.seed entry.description
    views := Element.seed entry.views
    likes := Element.seed entry.likes
    thumbnail := Element.seed entry.thumbnail
    deleted := Element.seed false
    downloaded := false
    known_not_deleted := true }

/-- Modelled from the spec: `CommentAuthor` (from `video.py`) carries
time-tracked name and icon attributes (§3). -/
structure CommentAuthor where
  name : Element String
  icon : Element String
deriving DecidableEq

/-- Modelled from the spec: `config.py` is not under `src/`.  Per §6 the
configuration carries per-category maxima and the comment-fetching
toggle. -/
structure Config where
  max_videos : Option Nat
  max_livestreams : Option Nat
  max_shorts : Option Nat
  comments : Bool
deriving DecidableEq

/-- The in-memory archive: `Archive` from `archive.py` (path, version,
url, the three buckets and the comment-author registry; the reporter is
modelled through explicit return values). -/
structure Archive where
  path : String
  version : Nat
  url : String
  videos : List Video
  livestreams : List Video
  shorts : List Video
  comment_authors : List (String × CommentAuthor)
deriving DecidableEq

/-- `curate_list` from `Archive._curate` (archive.py:358-378): when a
maximum is present the bucket is first cut to its first
`min(max(len(videos) - 1, 0), maximum)` items (the source builds this
prefix by an index loop over `range(fixed_maximum)`, which is `take`),
then the not-downloaded items of the considered slice are kept in
order. -/
def curate_list (videos : List Video) (maximum : Option Nat) : List Video :=
  let considered :=
    match maximum with
    | some m => videos.take (min (max (videos.length - 1) 0) m)
    | none => videos
  considered.filter (fun v => !v.downloaded)

/-- `Archive._curate` (archive.py:355-387): concatenates the per-bucket
curations, regular videos first, then livestreams, then shorts. -/
def Archive.curate (a : Archive) (config : Config) : List Video :=
  curate_list a.videos config.max_videos
    ++ curate_list a.livestreams config.max_livestreams
    ++ curate_list a.shorts config.max_shorts

/-- `Archive.search` (archive.py:345-353): linearly scans the regular
`videos` bucket for the id and returns the first match; raises
`VideoNotFoundException` (modelled as `Except.error`) when the id is not
in that bucket. -/
def Archive.search (a : Archive) (id : String) : Except String Video :=
  match a.videos.find? (fun v => v.id = id) with
  | some v => Except.ok v
  | none => Except.error ("Could not find " ++ id ++ " inside archive")

/-- The version-4 on-disk shape produced by `Archive._to_dict`
(archive.py:514-532).  Modelled from the spec for the item arrays:
`Video._to_dict` / `Video._from_dict` live in `video.py`, which is not
under `src/`; per §6 the canonical serialized store contains the three
item arrays in full, so per-item (de)serialization is modelled as the
identity on `Video`, and likewise per-author head (de)serialization. -/
structure EncodedArchive where
  version : Nat
  url : String
  videos : List Video
  livestreams : List Video
  shorts : List Video
  comment_authors : List (String × CommentAuthor)
deriving DecidableEq

/-- `Archive._to_dict` (archive.py:514-532): encodes version, url, the
three buckets and the comment-author registry. -/
def Archive.toDict (a : Archive) : EncodedArchive :=
  { version := a.version
    url := a.url
    videos := a.videos
    livestreams := a.livestreams
    shorts := a.shorts
    comment_authors := a.comment_authors }

/-- `Archive._from_dict` (archive.py:482-512): first decodes the
comment-author registry (lines 489-493), then sets the basic fields and
buckets, and finally reassigns `comment_authors = {}` (line 509),
discarding the decoded registry. -/
def Archive.fromDict (encoded : EncodedArchive) (path : String) : Archive :=
  let _decoded_comment_authors := encoded.comment_authors
  { path := path
    version := encoded.version
    url := encoded.url
    videos := encoded.videos
    livestreams := encoded.livestreams
    shorts := encoded.shorts
    comment_authors := [] }

/-- The on-disk archive directory state that `Archive.commit` and
`Archive._backup` touch: the primary `yark.json` (holding an encoded
archive) and the `yark.bak` backup (a dated comment header paired with
the copied primary content). -/
structure FsState where
  yarkJson : Option EncodedArchive
  yarkBak : Option (String × EncodedArchive)
deriving DecidableEq

/-- `Archive._backup` (archive.py:464-480): returns unchanged (skips
silently) when no primary `yark.json` exists; otherwise writes
`yark.bak` holding a dated comment header plus a copy of the current
primary file. -/
def backupStep (fs : FsState) (now : String) : FsState :=
  match fs.yarkJson with
  | none => fs
  | some current =>
      { fs with
        yarkBak := some ("// Backup of a Yark archive, dated " ++ now, current) }

/-- `Archive.commit` (archive.py:389-403): runs `_backup` first, then
(after ensuring the directory layout) overwrites the primary file with
the serialized archive. -/
def commitStep (a : Archive) (fs : FsState) (now : String) : FsState :=
  let fs1 := backupStep fs now
  { fs1 with yarkJson := some (Archive.toDict a) }

/-- One video entry of the raw persisted store as the migrator sees it:
only the fields the migrator writes are tracked (`deleted`, added at
version 3 as a freshly seeded element dictionary, and `comments`, added
at version 4 as an empty map). -/
structure RawVideo where
  deleted : Option (Element Bool)
  comments : Option (List Unit)
deriving DecidableEq

/-- The raw persisted store (`encoded` in `_migrate_archive`): fields
that only exist from some schema version on are optional, mirroring the
presence or absence of the corresponding dictionary keys. -/
structure RawStore where
  version : Nat
  id : Option String
  url : Option String
  videos : List RawVideo
  livestreams : Option (List RawVideo)
  shorts : Option (List RawVideo)
  comment_authors : Option (List (String × CommentAuthor))
deriving DecidableEq

/-- Fatal migration outcomes: the unknown-version branch calls
`sys.exit(1)`; an absent dictionary key would raise `KeyError`. -/
inductive MigrateError
  | unknownVersion (v : Nat)
  | missingField (name : String)
deriving DecidableEq

/-- `migrate_step` inside `_migrate_archive` (archive.py:585-654):
recursion over the current version; stops at `expected`, applies the
version-specific structural edit for versions 1, 2 and 3 (each ending by
setting `version := cur + 1` and recursing), and halts fatally on any
other version.  The version-3 step additionally renames the
`thumbnails/` directory and converts unsupported formats; those
filesystem side effects are outside the store model. -/
def migrate_step (expected : Nat) (cur : Nat) (encoded : RawStore) :
    Except MigrateError RawStore :=
  if cur = expected then
    Except.ok encoded
  else if h1 : cur = 1 then
    match encoded.id with
    | none => Except.error (MigrateError.missingField "id")
    | some oldId =>
        let e1 := { encoded with
          url := some ("https://www.youtube.com/channel/" ++ oldId)
          id := none
          livestreams := some []
          shorts := some [] }
        migrate_step expected (cur + 1) { e1 with version := cur + 1 }
  else if h2 : cur = 2 then
    match encoded.livestreams, encoded.shorts with
    | some ls, some ss =>
        let setDel := fun (v : RawVideo) =>
          { v with deleted := some (Element.seed false) }
        let e2 := { encoded with
          videos := encoded.videos.map setDel
          livestreams := some (ls.map setDel)
          shorts := some (ss.map setDel) }
        migrate_step expected (cur + 1) { e2 with version := cur + 1 }
    | _, _ => Except.error (MigrateError.missingField "livestreams")
  else if h3 : cur = 3 then
    match encoded.livestreams, encoded.shorts with
    | some ls, some ss =>
        let setCom := fun (v : RawVideo) => { v with comments := some [] }
        let e3 := { encoded with
          comment_authors := some []
          videos := encoded.videos.map setCom
          livestreams := some (ls.map setCom)
          shorts := some (ss.map setCom) }
        migrate_step expected (cur + 1) { e3 with version := cur + 1 }
    | _, _ => Except.error (MigrateError.missingField "livestreams")
  else
    Except.error (MigrateError.unknownVersion cur)
termination_by 4 - cur
decreasing_by
  all_goals omega

/-- `_migrate_archive` (archive.py:576-664): announces the backup and
starts the recursion at the loaded store's version. -/
def migrateArchive (currentVersion expectedVersion : Nat)
    (encoded : RawStore) : Except MigrateError RawStore :=
  migrate_step expectedVersion currentVersion encoded

/-- Python's substring containment test (`pattern in msg`). -/
def strContains (haystack pat : String) : Bool :=
  decide (List.IsInfix pat.toList haystack.toList)

/-- The typed download error raised by the content-download collaborator
(§6): only its message string is inspected by the coordinator. -/
structure DownloadError where
  msg : String
deriving DecidableEq

/-- `_skip_video` (archive.py:544-573): walks to the first not-downloaded
video and returns the suffix strictly after it (`videos[ind + 1:]`)
together with the video itself; when every video is downloaded the
function raises (`none` here).  The `warning` flag only selects the
notice style and is dropped. -/
def skipVideo : List Video → Option (List Video × Video)
  | [] => none
  | v :: rest => if !v.downloaded then some (rest, v) else skipVideo rest

/-- Flagging a video deleted: `video.deleted.update(None, True)`. -/
def flagDeleted (v : Video) : Video :=
  { v with deleted := v.deleted.update none true }

/-- What `_dl_exception_handle` communicates back: the shrunk list (the
source initializes it to `None` and fills it in the two skip branches),
the videos appended to `reporter.deleted` (the reporter keeps the same,
subsequently mutated object), the updated state of the video whose
deleted flag was set, and the video skipped with a warning notice in the
byte-count-mismatch branch. -/
structure DlHandleOut where
  new_not_downloaded : Option (List Video)
  reporter_deleted : List Video
  flagged : Option Video
  warned : Option Video
deriving DecidableEq

/-- The two ways `_dl_exception_handle` can raise: re-raising the
unclassified download error, or the defensive exception inside
`_skip_video` when there is nothing to skip. -/
inductive DlRaise
  | reraise (e : DownloadError)
  | skipExhausted
deriving DecidableEq

/-- `Archive._dl_exception_handle` (archive.py:306-343): classifies the
download error by message substring; private/removed videos are skipped
and flagged deleted when the flag is not already set, a byte-count
mismatch is skipped with a warning, and anything else is re-raised. -/
def dlExceptionHandle (not_downloaded : List Video) (e : DownloadError) :
    Except DlRaise DlHandleOut :=
  if strContains e.msg "Private video"
      || strContains e.msg "This video has been removed by the uploader" then
    match skipVideo not_downloaded with
    | none => Except.error DlRaise.skipExhausted
    | some (newList, video) =>
        if video.deleted.current = some false then
          Except.ok
            ⟨some newList, [flagDeleted video], some (flagDeleted video), none⟩
        else
          Except.ok ⟨some newList, [], none, none⟩
  else if strContains e.msg " bytes, expected " then
    match skipVideo not_downloaded with
    | none => Except.error DlRaise.skipExhausted
    | some (newList, video) =>
        Except.ok ⟨some newList, [], none, some video⟩
  else
    Except.error (DlRaise.reraise e)

/-- Following the claim's wording for the skip action: the remaining
list with exactly the first not-yet-downloaded item removed (to be
compared with what the code actually returns). -/
def claimRemoveFirstUndownloaded : List Video → List Video
  | [] => []
  | v :: rest =>
      if !v.downloaded then rest else v :: claimRemoveFirstUndownloaded rest

/-- The condition `_report_deleted` tests (archive.py:442): not yet
flagged deleted and not confirmed present during this ingestion pass. -/
def deletionCandidate (v : Video) : Bool :=
  decide (v.deleted.current = some false) && !v.known_not_deleted

/-- `Archive._report_deleted` (archive.py:439-444): walks the bucket in
order; every deletion candidate is appended to `reporter.deleted` and
flagged deleted (the reporter keeps the same, subsequently mutated
object).  Returns the updated bucket and the reported videos. -/
def reportDeleted : List Video → List Video × List Video
  | [] => ([], [])
  | v :: rest =>
      let (rest1, rep) := reportDeleted rest
      if deletionCandidate v then (flagDeleted v :: rest1, flagDeleted v :: rep)
      else (v :: rest1, rep)

/-- Modelled from the spec §4.3: `Video._from_dict` lives in `video.py`
(not under `src/`); a freshly loaded item has not been confirmed present
in the current ingestion pass, so a later pass starts with the marker
cleared. -/
def resetConfirmed (v : Video) : Video :=
  { v with known_not_deleted := false }

/-- The skip test of `_parse_metadata_video` (archive.py:420): no
`formats` key, or an empty format list. -/
def noFormats (entry : RawEntry) : Bool :=
  match entry.formats with
  | none => true
  | some fs => fs.isEmpty

/-- The update loop of `_parse_metadata_video` (archive.py:426-431):
updates the first video whose id matches the entry in place and reports
whether a match was found. -/
def mergeEntry : List Video → RawEntry → List Video × Bool
  | [], _ => ([], false)
  | v :: rest, entry =>
      if v.id = entry.id then (v.update entry :: rest, true)
      else
        let (rest1, found) := mergeEntry rest entry
        (v :: rest1, found)

/-- `Archive._parse_metadata_video` (archive.py:417-437): entries with
no formats are skipped; otherwise the matching video is updated in
place, or a newly constructed video is appended and reported to the
caller (the reporter's added list) as newly discovered. -/
def parseMetadataVideo (videos : List Video) (entry : RawEntry) :
    List Video × Option Video :=
  if noFormats entry then (videos, none)
  else
    let (videos1, updated) := mergeEntry videos entry
    if updated then (videos1, none)
    else (videos1 ++ [Video.new entry], some (Video.new entry))

/-- The newest-first bucket order (archive.py:414-415): Python's stable
`videos.sort(reverse=True)` on the video recency key. -/
def newestFirst (a b : Video) : Prop :=
  b.uploaded ≤ a.uploaded

instance : DecidableRel newestFirst :=
  fun a b => Nat.decLe b.uploaded a.uploaded

instance : IsTotal Video newestFirst :=
  ⟨fun a b => Nat.le_total b.uploaded a.uploaded⟩

instance : IsTrans Video newestFirst :=
  ⟨fun _ _ _ h1 h2 => Nat.le_trans h2 h1⟩

/-- `Archive._parse_metadata` (archive.py:405-415): parses every entry
of a category into its bucket, then re-sorts the bucket newest-first
with a stable sort (modelled by insertion sort). -/
def parseMetadata (videos : List Video) (entries : List RawEntry) :
    List Video :=
  List.insertionSort newestFirst
    (entries.foldl (fun b entry => (parseMetadataVideo b entry).1) videos)

/-- A video already reflecting a snapshot entry: every tracked attribute
currently holds the entry's field and the video is confirmed present.
Updating such a video with the same entry is a no-op. -/
def Video.reflects (v : Video) (entry : RawEntry) : Prop :=
  v.title.current = some entry.title
  ∧ v.description.current = some entry.description
  ∧ v.views.current = some entry.views
  ∧ v.likes.current = some entry.likes
  ∧ v.thumbnail.current = some entry.thumbnail
  ∧ v.known_not_deleted = true

/-- An ingestion step cannot change a bucket it already reflects: the
entry is either format-less or already reflected by a video with its
id. -/
def coveredBy (videos : List Video) (entry : RawEntry) : Prop :=
  noFormats entry = true
  ∨ ∃ w ∈ videos, w.id = entry.id ∧ w.reflects entry

/-- The outcome of the whole-batch content download loop
(`Archive.download`, archive.py:201-242), recording the archive state
and the attempt index at which the loop stopped; exhausting the five
attempts is fatal (`_err_dl` with `retrying=False` calls
`sys.exit(1)`). -/
inductive DownloadResult
  | nothingToDo (a : Archive) (attempt : Nat)
  | completed (a : Archive) (attempt : Nat)
  | fatal (e : DownloadError) (attempt : Nat)
deriving DecidableEq

/-- The attempt index recorded in a download outcome. -/
def DownloadResult.attempt : DownloadResult → Nat
  | nothingToDo _ i => i
  | completed _ i => i
  | fatal _ i => i

/-- The `for i in range(5)` body of `Archive.download`
(archive.py:207-237): every attempt re-curates the remaining work from
the current archive state and stops when nothing is left; otherwise it
launches the download pass (`launch`, the external `_dl_launch`
collaborator, which may mutate the archive before failing), breaks on
success, and on failure retries — the failure of the fifth attempt
(`i != 4` false) being fatal. -/
def downloadLoop (config : Config)
    (launch : Nat → Archive → Archive × Option DownloadError)
    (i : Nat) (a : Archive) : DownloadResult :=
  let curated := Archive.curate a config
  if curated = [] then DownloadResult.nothingToDo a i
  else
    match launch i a with
    | (a1, none) => DownloadResult.completed a1 i
    | (a1, some e) =>
        if h : 4 ≤ i then DownloadResult.fatal e i
        else downloadLoop config launch (i + 1) a1
termination_by 5 - i
decreasing_by
  omega

/-- The outcome of the metadata fetch loop, with the attempt index. -/
inductive MetadataResult (M : Type)
  | ok (res : M) (attempt : Nat)
  | fatal (e : DownloadError) (attempt : Nat)
deriving DecidableEq

/-- The attempt index recorded in a metadata outcome. -/
def MetadataResult.attempt {M : Type} : MetadataResult M → Nat
  | ok _ i => i
  | fatal _ i => i

/-- The `for i in range(3)` metadata fetch of `Archive.metadata`
(archive.py:136-151): retries `extract_info` (the `fetch` oracle) up to
three times; the failure of the third attempt (`i != 2` false) is
fatal. -/
def metadataLoop {M : Type} (fetch : Nat → Except DownloadError M)
    (i : Nat) : MetadataResult M :=
  match fetch i with
  | Except.ok r => MetadataResult.ok r i
  | Except.error e =>
      if h : 2 ≤ i then MetadataResult.fatal e i
      else metadataLoop fetch (i + 1)
termination_by 3 - i
decreasing_by
  omega

/-- A configuration with no per-category maxima. -/
def cfgUnlimited : Config :=
  { max_videos := none
    max_livestreams := none
    max_shorts := none
    comments := false }

/-- A launch oracle that always fails without mutating the archive. -/
def failingLaunch (err : DownloadError) :
    Nat → Archive → Archive × Option DownloadError :=
  fun _ b => (b, some err)

/-- A launch oracle that always succeeds without mutating the archive. -/
def okLaunch : Nat → Archive → Archive × Option DownloadError :=
  fun _ b => (b, none)

/-- A metadata fetch oracle that always fails. -/
def failingFetch (err : DownloadError) : Nat → Except DownloadError Unit :=
  fun _ => Except.error err

/-- An archive with empty buckets (nothing to curate). -/
def emptyArchive : Archive :=
  { path := "archive"
    version := 4
    url := "https://example"
    videos := []
    livestreams := []
    shorts := []
    comment_authors := [] }

/-- A sample undownloaded video used to instantiate concrete statements. -/
def sampleVideo (i : Nat) : Video :=
  { id := toString i
    uploaded := i
    title := Element.seed "title"
    description := Element.seed "description"
    views := Element.seed 0
    likes := Element.seed 0
    thumbnail := Element.seed "thumb"
    deleted := Element.seed false
    downloaded := false
    known_not_deleted := false }

/-- A sample comment author used to instantiate concrete statements. -/
def sampleAuthor : CommentAuthor :=
  { name := Element.seed "name", icon := Element.seed "icon" }

/-- A sample archive with a non-empty comment-author registry. -/
def sampleArchive : Archive :=
  { path := "archive"
    version := 4
    url := "https://example"
    videos := [sampleVideo 0]
    livestreams := [sampleVideo 1]
    shorts := []
    comment_authors := [("author1", sampleAuthor)] }

/-- A sample version-1 persisted store with one video. -/
def sampleV1Store : RawStore :=
  { version := 1
    id := some "UC123"
    url := none
    videos := [{ deleted := none, comments := none }]
    livestreams := none
    shorts := none
    comment_authors := none }

/-- A sample archive whose only item lives in the livestreams bucket. -/
def sampleLivestreamArchive : Archive :=
  { path := "archive"
    version := 4
    url := "https://example"
    videos := []
    livestreams := [sampleVideo 7]
    shorts := []
    comment_authors := [] }

/-- A sample curated list whose first video is already downloaded. -/
def c5videos : List Video :=
  [{ sampleVideo 1 with downloaded := true }, sampleVideo 2, sampleVideo 3]

/-- A sample snapshot entry with a non-empty format list. -/
def sampleEntry (i : Nat) (t : String) : RawEntry :=
  { id := toString i
    title := t
    description := "description"
    views := 1
    likes := 2
    thumbnail := "thumb"
    formats := some [()]
    uploaded := i }

/-- A sample snapshot entry whose format list is empty (an upcoming
video or pending livestream). -/
def sampleEntryNoFormats : RawEntry :=
  { sampleEntry 9 "upcoming" with formats := some [] }

end Yark

namespace Yark

/-- Updating a time-tracked element always leaves the updated value as
the current one. -/
theorem Element.current_update {T : Type} [DecidableEq T] (el : Element T)
    (t : Option Nat) (x : T) : (el.update t x).current = some x := by
  unfold Element.update
  split
  · assumption
  · simp [Element.current]

/-- Updating a time-tracked element with its current value is a no-op. -/
theorem Element.update_of_current_eq {T : Type} [DecidableEq T]
    (el : Element T) (t : Option Nat) (x : T) (h : el.current = some x) :
    el.update t x = el := by
  simp [Element.update, h]

/-- `_skip_video` on a list whose prefix is fully downloaded and whose
next video is not: it returns the suffix after that video, paired with
the video. -/
theorem skipVideo_append (pre post : List Video) (v : Video)
    (hpre : ∀ w ∈ pre, w.downloaded = true) (hv : v.downloaded = false) :
    skipVideo (pre ++ v :: post) = some (post, v) := by
  induction pre with
  | nil => simp [skipVideo, hv]
  | cons w ws ih =>
      have hw := hpre w (by simp)
      simp only [List.cons_append, skipVideo, hw]
      exact ih (fun x hx => hpre x (by simp [hx]))

/-- C1: curation over one bucket with a set maximum `m` considers exactly
the first `min(max(len(bucket)-1, 0), m)` items in the bucket's current
order and returns, in order, the considered items that are not yet
downloaded; a bucket of 10 all-undownloaded items with maximum 3 yields
exactly 3 candidates and a bucket of 1 undownloaded item with maximum 5
yields 0 candidates. -/
theorem c1_curation_bounds (videos : List Video) (m : Nat) :
    curate_list videos (some m)
      = (videos.take (min (max (videos.length - 1) 0) m)).filter
          (fun v => !v.downloaded)
    ∧ ((∀ v ∈ videos, v.downloaded = false) → videos.length = 10 →
        (curate_list videos (some 3)).length = 3)
    ∧ ((∀ v ∈ videos, v.downloaded = false) → videos.length = 1 →
        curate_list videos (some 5) = []) := by
  refine ⟨rfl, ?_, ?_⟩
  · intro hall hlen
    have h1 : curate_list videos (some 3)
        = (videos.take 3).filter (fun v => !v.downloaded) := by
      simp [curate_list, hlen]
    have h2 : (videos.take 3).filter (fun v => !v.downloaded) = videos.take 3 := by
      apply List.filter_eq_self.mpr
      intro v hv
      have hd := hall v (List.take_subset _ _ hv)
      simp [hd]
    rw [h1, h2, List.length_take, hlen]
    decide
  · intro hall hlen
    simp [curate_list, hlen]

/-- Witness for `c1_curation_bounds`: 10 concrete undownloaded videos with
maximum 3 give 3 candidates; 1 undownloaded video with maximum 5 gives
none. -/
theorem c1_curation_bounds_witness :
    (curate_list ((List.range 10).map sampleVideo) (some 3)).length = 3
    ∧ curate_list [sampleVideo 0] (some 5) = [] := by
  constructor
  · exact (c1_curation_bounds ((List.range 10).map sampleVideo) 3).2.1
      (by decide) (by decide)
  · exact (c1_curation_bounds [sampleVideo 0] 5).2.2 (by decide) (by decide)

/-- C2: `Archive._from_dict` always leaves the comment-author registry
empty (the decoded registry is discarded by the later reassignment), so
the `_to_dict`/`_from_dict` round trip does not preserve a non-empty
author registry, while it preserves version, url and the three item
buckets. -/
theorem c2_from_dict_empty_authors (e : EncodedArchive) (a : Archive)
    (p : String) :
    (Archive.fromDict e p).comment_authors = []
    ∧ Archive.fromDict (Archive.toDict a) p
        = { a with path := p, comment_authors := [] }
    ∧ (a.comment_authors ≠ [] →
        (Archive.fromDict (Archive.toDict a) p).comment_authors
          ≠ a.comment_authors) := by
  refine ⟨rfl, ?_, ?_⟩
  · cases a
    rfl
  · intro h hc
    exact h (by simpa [Archive.fromDict, Archive.toDict] using hc.symm)

/-- Witness for `c2_from_dict_empty_authors`: a concrete archive with one
registered comment author loses it across the round trip. -/
theorem c2_from_dict_empty_authors_witness :
    (Archive.fromDict (Archive.toDict sampleArchive) "p").comment_authors
      ≠ sampleArchive.comment_authors :=
  (c2_from_dict_empty_authors (Archive.toDict sampleArchive) sampleArchive
    "p").2.2 (by decide)

/-- C9: `Archive.search` inspects only the regular `videos` bucket — its
result is unchanged by replacing the livestreams and shorts buckets — so
on a concrete archive whose only item (id "7") lives in the livestreams
bucket, lookup of "7" raises even though the id is present in a bucket. -/
theorem c9_search_scans_only_regular_bucket :
    (∀ (a : Archive) (id : String) (ls ss : List Video),
        Archive.search { a with livestreams := ls, shorts := ss } id
          = Archive.search a id)
    ∧ sampleLivestreamArchive.livestreams.any (fun v => v.id = "7") = true
    ∧ Archive.search sampleLivestreamArchive "7"
        = Except.error "Could not find 7 inside archive" := by
  refine ⟨fun a id ls ss => rfl, by decide, rfl⟩

/-- C3: migration is a strictly sequential state machine terminating at
the compatibility constant 4: at version 4 it stops, a version-1 store
ends at version 4 with the url derived from the old id, the id key
removed, empty livestreams/shorts lists, an empty comment-author
registry, and a seeded deleted element plus an empty comments map on
every video (the livestream/short buckets being empty); every
unrecognized version halts fatally without returning a migrated store. -/
theorem c3_migration_state_machine (e : RawStore) (i : String) (v : Nat) :
    migrate_step 4 4 e = Except.ok e
    ∧ (e.id = some i →
        ∃ result, migrate_step 4 1 e = Except.ok result
          ∧ result.version = 4
          ∧ result.url = some ("https://www.youtube.com/channel/" ++ i)
          ∧ result.id = none
          ∧ result.livestreams = some []
          ∧ result.shorts = some []
          ∧ result.comment_authors = some []
          ∧ result.videos.length = e.videos.length
          ∧ ∀ w ∈ result.videos,
              w.deleted = some (Element.seed false) ∧ w.comments = some [])
    ∧ (v ≠ 4 → v ≠ 1 → v ≠ 2 → v ≠ 3 →
        migrate_step 4 v e = Except.error (MigrateError.unknownVersion v)) := by
  refine ⟨by rw [migrate_step]; simp, ?_, ?_⟩
  · intro hid
    obtain ⟨ver, id0, url0, vids, ls0, ss0, ca0⟩ := e
    simp only at hid
    subst hid
    simp [migrate_step]
  · intro h4 h1 h2 h3
    rw [migrate_step]
    simp [h4, h1, h2, h3]

/-- Witness for `c3_migration_state_machine`: a concrete version-1 store
with one video migrates to version 4 with all introduced fields
defaulted, and version 99 halts with a migration error. -/
theorem c3_migration_state_machine_witness :
    (∃ result, migrate_step 4 1 sampleV1Store = Except.ok result
      ∧ result.version = 4
      ∧ result.url = some ("https://www.youtube.com/channel/" ++ "UC123")
      ∧ result.id = none
      ∧ result.livestreams = some []
      ∧ result.shorts = some []
      ∧ result.comment_authors = some []
      ∧ result.videos.length = sampleV1Store.videos.length
      ∧ ∀ w ∈ result.videos,
          w.deleted = some (Element.seed false) ∧ w.comments = some [])
    ∧ migrate_step 4 99 sampleV1Store
        = Except.error (MigrateError.unknownVersion 99) :=
  ⟨(c3_migration_state_machine sampleV1Store "UC123" 99).2.1 rfl,
   (c3_migration_state_machine sampleV1Store "UC123" 99).2.2
     (by decide) (by decide) (by decide) (by decide)⟩

/-- C5 (amended): on a private/removed download error the handler skips
the first not-yet-downloaded item together with all already-downloaded
items preceding it (it keeps only the suffix after that item), flags the
item deleted and records it exactly when its deleted flag is not already
true (after which the flag reads true); on a byte-count-mismatch error it
performs the same suffix-keeping skip as a warning without flagging; any
other error is re-raised unmodified. -/
theorem c5_download_error_classification (vids pre post : List Video)
    (v : Video) (e : DownloadError) :
    ((strContains e.msg "Private video"
        || strContains e.msg "This video has been removed by the uploader")
          = true →
      vids = pre ++ v :: post → (∀ w ∈ pre, w.downloaded = true) →
      v.downloaded = false →
      dlExceptionHandle vids e
        = Except.ok
            (if v.deleted.current = some false then
              ⟨some post, [flagDeleted v], some (flagDeleted v), none⟩
            else ⟨some post, [], none, none⟩)
      ∧ (flagDeleted v).deleted.current = some true)
    ∧ ((strContains e.msg "Private video"
        || strContains e.msg "This video has been removed by the uploader")
          = false →
      strContains e.msg " bytes, expected " = true →
      vids = pre ++ v :: post → (∀ w ∈ pre, w.downloaded = true) →
      v.downloaded = false →
      dlExceptionHandle vids e = Except.ok ⟨some post, [], none, some v⟩)
    ∧ ((strContains e.msg "Private video"
        || strContains e.msg "This video has been removed by the uploader")
          = false →
      strContains e.msg " bytes, expected " = false →
      dlExceptionHandle vids e = Except.error (DlRaise.reraise e)) := by
  refine ⟨?_, ?_, ?_⟩
  · intro hc hv hpre hdl
    subst hv
    refine ⟨?_, by simp [flagDeleted, Element.current_update]⟩
    simp only [dlExceptionHandle, hc, skipVideo_append pre post v hpre hdl]
    by_cases h : v.deleted.current = some false <;> simp [h]
  · intro hc hb hv hpre hdl
    subst hv
    simp [dlExceptionHandle, hc, hb, skipVideo_append pre post v hpre hdl]
  · intro hc hb
    simp [dlExceptionHandle, hc, hb]

/-- Counterexample to C5 as stated: with a remaining list whose first
item is already downloaded, the code keeps only the suffix after the
first not-yet-downloaded item, not the list with just that item
removed. -/
theorem c5_skip_drops_downloaded_prefix :
    dlExceptionHandle c5videos { msg := "ERROR: Private video" }
      = Except.ok ⟨some [sampleVideo 3], [flagDeleted (sampleVideo 2)],
          some (flagDeleted (sampleVideo 2)), none⟩
    ∧ claimRemoveFirstUndownloaded c5videos
      = [{ sampleVideo 1 with downloaded := true }, sampleVideo 3]
    ∧ ¬ ([sampleVideo 3]
        = [{ sampleVideo 1 with downloaded := true }, sampleVideo 3]) := by
  refine ⟨rfl, by decide, by decide⟩

/-- Witness for `c5_download_error_classification`: the three branches on
concrete inputs — a private-video error skips and flags, a byte-count
mismatch skips with a warning, and an unclassified error is re-raised. -/
theorem c5_download_error_classification_witness :
    dlExceptionHandle c5videos { msg := "ERROR: Private video" }
      = Except.ok ⟨some [sampleVideo 3], [flagDeleted (sampleVideo 2)],
          some (flagDeleted (sampleVideo 2)), none⟩
    ∧ dlExceptionHandle c5videos
        { msg := "file is 100 bytes, expected 200 bytes" }
      = Except.ok ⟨some [sampleVideo 3], [], none, some (sampleVideo 2)⟩
    ∧ dlExceptionHandle c5videos { msg := "HTTP Error 404: Not Found" }
      = Except.error (DlRaise.reraise { msg := "HTTP Error 404: Not Found" }) := by
  refine ⟨?_, ?_, ?_⟩
  · exact ((c5_download_error_classification c5videos
      [{ sampleVideo 1 with downloaded := true }] [sampleVideo 3]
      (sampleVideo 2) { msg := "ERROR: Private video" }).1
      (by decide) rfl (by decide) (by decide)).1
  · exact (c5_download_error_classification c5videos
      [{ sampleVideo 1 with downloaded := true }] [sampleVideo 3]
      (sampleVideo 2) { msg := "file is 100 bytes, expected 200 bytes" }).2.1
      (by decide) (by decide) rfl (by decide) (by decide)
  · exact (c5_download_error_classification c5videos
      [{ sampleVideo 1 with downloaded := true }] [sampleVideo 3]
      (sampleVideo 2) { msg := "HTTP Error 404: Not Found" }).2.2
      (by decide) (by decide)

/-- Per-bucket curation only ever returns not-downloaded videos. -/
theorem curate_list_not_downloaded (videos : List Video)
    (maximum : Option Nat) :
    ∀ v ∈ curate_list videos maximum, v.downloaded = false := by
  intro v hv
  cases maximum <;>
    · simp [curate_list] at hv
      exact hv.2

/-- The whole-batch download loop, entered at any attempt index at most
4, always stops at an attempt index at most 4 (at most five attempts). -/
theorem downloadLoop_attempt_le (config : Config)
    (launch : Nat → Archive → Archive × Option DownloadError) :
    ∀ k i a, 5 - i ≤ k → i ≤ 4 →
      (downloadLoop config launch i a).attempt ≤ 4 := by
  intro k
  induction k with
  | zero =>
      intro i a hk hi
      omega
  | succ n ih =>
      intro i a hk hi
      rw [downloadLoop]
      by_cases hc : Archive.curate a config = []
      · simp [hc, DownloadResult.attempt, hi]
      · cases hl : launch i a with
        | mk a1 oe =>
            cases oe with
            | none => simp [hc, hl, DownloadResult.attempt, hi]
            | some e =>
                by_cases h4 : 4 ≤ i
                · simp [hc, hl, h4, DownloadResult.attempt, hi]
                · simp only [hc, hl, h4, if_false, dite_false]
                  have := ih (i + 1) a1 (by omega) (by omega)
                  simpa [hc, hl, h4] using this

/-- A launch oracle that always fails without touching the archive makes
the loop exhaust all five attempts and end fatally on the fifth. -/
theorem downloadLoop_const_fail (config : Config)
    (launch : Nat → Archive → Archive × Option DownloadError)
    (e0 : DownloadError) (hL : ∀ j b, launch j b = (b, some e0))
    (a : Archive) (hne : Archive.curate a config ≠ []) :
    downloadLoop config launch 0 a = DownloadResult.fatal e0 4 := by
  have step : ∀ i, ¬ 4 ≤ i →
      downloadLoop config launch i a = downloadLoop config launch (i + 1) a := by
    intro i hi
    rw [downloadLoop]
    simp [hne, hL i a, hi]
  rw [step 0 (by omega), step 1 (by omega), step 2 (by omega),
    step 3 (by omega), downloadLoop]
  simp [hne, hL 4 a]

/-- The metadata fetch loop, entered at any attempt index at most 2,
always stops at an attempt index at most 2 (at most three attempts). -/
theorem metadataLoop_attempt_le {M : Type}
    (fetch : Nat → Except DownloadError M) :
    ∀ k i, 3 - i ≤ k → i ≤ 2 → (metadataLoop fetch i).attempt ≤ 2 := by
  intro k
  induction k with
  | zero =>
      intro i hk hi
      omega
  | succ n ih =>
      intro i hk hi
      rw [metadataLoop]
      cases hf : fetch i with
      | ok r => simp [hf, MetadataResult.attempt, hi]
      | error e =>
          by_cases h2 : 2 ≤ i
          · simp [hf, h2, MetadataResult.attempt, hi]
          · have := ih (i + 1) (by omega) (by omega)
            simpa [hf, h2] using this

/-- A fetch oracle that always fails makes the metadata loop exhaust all
three attempts and end fatally on the third. -/
theorem metadataLoop_const_fail {M : Type}
    (fetch : Nat → Except DownloadError M) (e0 : DownloadError)
    (hF : ∀ j, fetch j = Except.error e0) :
    metadataLoop fetch 0 = MetadataResult.fatal e0 2 := by
  have step : ∀ i, ¬ 2 ≤ i →
      metadataLoop fetch i = metadataLoop fetch (i + 1) := by
    intro i hi
    rw [metadataLoop]
    simp [hF i, hi]
  rw [step 0 (by omega), step 1 (by omega), metadataLoop]
  simp [hF 2]

/-- C6: the whole-batch content download makes at most 5 attempts,
re-curating the remaining work at the start of every attempt from the
current state (and curation only ever offers not-yet-downloaded items,
so items completed earlier are excluded); it stops early when curation is
empty or a pass completes without error, and an error on every attempt is
fatal at the fifth; the metadata fetch analogously makes at most 3
attempts with failure on the third fatal. -/
theorem c6_retry_bounds {M : Type} (config : Config)
    (launch : Nat → Archive → Archive × Option DownloadError)
    (fetch : Nat → Except DownloadError M)
    (a a1 : Archive) (e0 : DownloadError) (i : Nat) :
    (i ≤ 4 → (downloadLoop config launch i a).attempt ≤ 4)
    ∧ (∀ v ∈ Archive.curate a config, v.downloaded = false)
    ∧ (Archive.curate a config = [] →
        downloadLoop config launch i a = DownloadResult.nothingToDo a i)
    ∧ (Archive.curate a config ≠ [] → launch i a = (a1, none) →
        downloadLoop config launch i a = DownloadResult.completed a1 i)
    ∧ ((∀ j b, launch j b = (b, some e0)) → Archive.curate a config ≠ [] →
        downloadLoop config launch 0 a = DownloadResult.fatal e0 4)
    ∧ (i ≤ 2 → (metadataLoop fetch i).attempt ≤ 2)
    ∧ ((∀ j, fetch j = Except.error e0) →
        metadataLoop fetch 0 = MetadataResult.fatal e0 2) := by
  refine ⟨fun hi => downloadLoop_attempt_le config launch 5 i a (by omega) hi,
    ?_, ?_, ?_,
    fun hL hne => downloadLoop_const_fail config launch e0 hL a hne,
    fun hi => metadataLoop_attempt_le fetch 3 i (by omega) hi,
    fun hF => metadataLoop_const_fail fetch e0 hF⟩
  · intro v hv
    simp only [Archive.curate, List.mem_append] at hv
    rcases hv with (hv | hv) | hv <;>
      exact curate_list_not_downloaded _ _ v hv
  · intro hc
    rw [downloadLoop]
    simp [hc]
  · intro hne hl
    rw [downloadLoop]
    simp [hne, hl]

/-- Witness for `c6_retry_bounds`: concrete oracles — an always-failing
launch over a one-video archive ends fatally at attempt index 4 (the
fifth attempt), an empty curation stops at once, an immediately
successful launch completes at attempt 0, and an always-failing metadata
fetch ends fatally at attempt index 2 (the third attempt). -/
theorem c6_retry_bounds_witness :
    downloadLoop cfgUnlimited (failingLaunch ⟨"boom"⟩) 0 sampleLivestreamArchive
      = DownloadResult.fatal ⟨"boom"⟩ 4
    ∧ downloadLoop cfgUnlimited (failingLaunch ⟨"boom"⟩) 0 emptyArchive
      = DownloadResult.nothingToDo emptyArchive 0
    ∧ downloadLoop cfgUnlimited okLaunch 0 sampleLivestreamArchive
      = DownloadResult.completed sampleLivestreamArchive 0
    ∧ (downloadLoop cfgUnlimited (failingLaunch ⟨"boom"⟩) 1
        sampleLivestreamArchive).attempt ≤ 4
    ∧ metadataLoop (failingFetch ⟨"boom"⟩) 0 = MetadataResult.fatal ⟨"boom"⟩ 2
    ∧ (metadataLoop (failingFetch ⟨"boom"⟩) 1).attempt ≤ 2 := by
  refine ⟨?_, ?_, ?_, ?_, ?_, ?_⟩
  · exact (c6_retry_bounds cfgUnlimited (failingLaunch ⟨"boom"⟩)
      (failingFetch ⟨"boom"⟩) sampleLivestreamArchive sampleLivestreamArchive
      ⟨"boom"⟩ 0).2.2.2.2.1 (fun j b => rfl) (by decide)
  · exact (c6_retry_bounds cfgUnlimited (failingLaunch ⟨"boom"⟩)
      (failingFetch ⟨"boom"⟩) emptyArchive emptyArchive ⟨"boom"⟩ 0).2.2.1 rfl
  · exact (c6_retry_bounds cfgUnlimited okLaunch
      (failingFetch ⟨"boom"⟩) sampleLivestreamArchive sampleLivestreamArchive
      ⟨"boom"⟩ 0).2.2.2.1 (by decide) rfl
  · exact (c6_retry_bounds cfgUnlimited (failingLaunch ⟨"boom"⟩)
      (failingFetch ⟨"boom"⟩) sampleLivestreamArchive sampleLivestreamArchive
      ⟨"boom"⟩ 1).1 (by omega)
  · exact (c6_retry_bounds cfgUnlimited (failingLaunch ⟨"boom"⟩)
      (failingFetch ⟨"boom"⟩) sampleLivestreamArchive sampleLivestreamArchive
      ⟨"boom"⟩ 0).2.2.2.2.2.2 (fun j => rfl)
  · exact (c6_retry_bounds cfgUnlimited (failingLaunch ⟨"boom"⟩)
      (failingFetch ⟨"boom"⟩) sampleLivestreamArchive sampleLivestreamArchive
      ⟨"boom"⟩ 1).2.2.2.2.2.1 (by omega)

/-- A freshly seeded element's current value is the seed. -/
theorem Element.current_seed {T : Type} (x : T) :
    (Element.seed x).current = some x := rfl

/-- Updating a video from a snapshot entry keeps its id. -/
theorem Video.update_id (v : Video) (e : RawEntry) :
    (v.update e).id = v.id := rfl

/-- A newly constructed video takes the entry's id. -/
theorem Video.new_id (e : RawEntry) : (Video.new e).id = e.id := rfl

/-- After an update from an entry, the video reflects that entry. -/
theorem Video.update_reflects (v : Video) (e : RawEntry) :
    (v.update e).reflects e := by
  simp [Video.reflects, Video.update, Element.current_update]

/-- A newly constructed video reflects its entry. -/
theorem Video.new_reflects (e : RawEntry) : (Video.new e).reflects e := by
  simp [Video.reflects, Video.new, Element.current_seed]

/-- Updating a video that already reflects the entry is a no-op. -/
theorem Video.update_eq_self_of_reflects (v : Video) (e : RawEntry)
    (h : v.reflects e) : v.update e = v := by
  obtain ⟨h1, h2, h3, h4, h5, h6⟩ := h
  cases v
  simp_all [Video.update, Element.update_of_current_eq _ _ _ h1,
    Element.update_of_current_eq _ _ _ h2,
    Element.update_of_current_eq _ _ _ h3,
    Element.update_of_current_eq _ _ _ h4,
    Element.update_of_current_eq _ _ _ h5]

/-- The update loop never changes the bucket's id sequence. -/
theorem mergeEntry_ids (videos : List Video) (e : RawEntry) :
    (mergeEntry videos e).1.map Video.id = videos.map Video.id := by
  induction videos with
  | nil => rfl
  | cons x rest ih =>
      by_cases hx : x.id = e.id <;>
        simp [mergeEntry, hx, ih, Video.update_id]

/-- A video whose id differs from the entry's survives the update loop. -/
theorem mergeEntry_mem (videos : List Video) (e : RawEntry) (w : Video)
    (hw : w ∈ videos) (hne : w.id ≠ e.id) : w ∈ (mergeEntry videos e).1 := by
  induction videos with
  | nil => simp at hw
  | cons x rest ih =>
      rcases List.mem_cons.mp hw with rfl | hrest
      · by_cases hx : w.id = e.id
        · exact absurd hx hne
        · simp [mergeEntry, hx]
      · by_cases hx : x.id = e.id
        · simp only [mergeEntry, if_pos hx]
          exact List.mem_cons.mpr (Or.inr hrest)
        · simp only [mergeEntry, if_neg hx]
          exact List.mem_cons.mpr (Or.inr (ih hrest))

/-- The update loop reports a match exactly when some video in the
bucket has the entry's id. -/
theorem mergeEntry_found_iff (videos : List Video) (e : RawEntry) :
    (mergeEntry videos e).2 = true ↔ ∃ w ∈ videos, w.id = e.id := by
  induction videos with
  | nil => simp [mergeEntry]
  | cons x rest ih =>
      by_cases hx : x.id = e.id
      · simp only [mergeEntry, if_pos hx]
        constructor
        · intro _
          exact ⟨x, List.mem_cons_self x rest, hx⟩
        · intro _
          trivial
      · simp only [mergeEntry, if_neg hx]
        rw [ih]
        constructor
        · rintro ⟨w, hw, hid⟩
          exact ⟨w, List.mem_cons.mpr (Or.inr hw), hid⟩
        · rintro ⟨w, hw, hid⟩
          rcases List.mem_cons.mp hw with rfl | hw2
          · exact absurd hid hx
          · exact ⟨w, hw2, hid⟩

/-- With duplicate-free bucket ids, the update loop is the identity on a
bucket whose matching video absorbs the update. -/
theorem mergeEntry_eq_self (videos : List Video) (e : RawEntry)
    (hnd : (videos.map Video.id).Nodup)
    (hw : ∃ w ∈ videos, w.id = e.id ∧ w.update e = w) :
    mergeEntry videos e = (videos, true) := by
  induction videos with
  | nil => simp at hw
  | cons x rest ih =>
      rw [List.map_cons, List.nodup_cons] at hnd
      obtain ⟨hnin, hnd2⟩ := hnd
      obtain ⟨w, hmem, hwid, hwupd⟩ := hw
      by_cases hx : x.id = e.id
      · have hwx : w = x := by
          rcases List.mem_cons.mp hmem with rfl | hrest
          · rfl
          · exfalso
            apply hnin
            rw [hx, ← hwid]
            exact List.mem_map_of_mem Video.id hrest
        subst hwx
        simp [mergeEntry, hx, hwupd]
      · have hw2 : w ∈ rest := by
          rcases List.mem_cons.mp hmem with rfl | h2
          · exact absurd hwid hx
          · exact h2
        simp [mergeEntry, hx, ih hnd2 ⟨w, hw2, hwid, hwupd⟩]

/-- With duplicate-free bucket ids, an ingestion step over an entry the
bucket already covers leaves the bucket unchanged. -/
theorem parseMetadataVideo_eq_self (videos : List Video) (e : RawEntry)
    (hnd : (videos.map Video.id).Nodup) (hcov : coveredBy videos e) :
    (parseMetadataVideo videos e).1 = videos := by
  rcases hcov with hnf | ⟨w, hmem, hwid, hrefl⟩
  · simp [parseMetadataVideo, hnf]
  · by_cases hnf : noFormats e = true
    · simp [parseMetadataVideo, hnf]
    · have hme := mergeEntry_eq_self videos e hnd
        ⟨w, hmem, hwid, Video.update_eq_self_of_reflects w e hrefl⟩
      simp [parseMetadataVideo, hnf, hme]

/-- An ingestion step preserves duplicate-freeness of the bucket ids. -/
theorem parseMetadataVideo_ids_nodup (videos : List Video) (e : RawEntry)
    (hnd : (videos.map Video.id).Nodup) :
    ((parseMetadataVideo videos e).1.map Video.id).Nodup := by
  by_cases hnf : noFormats e = true
  · simpa [parseMetadataVideo, hnf] using hnd
  · cases hme : mergeEntry videos e with
    | mk vs1 upd =>
        have hids : vs1.map Video.id = videos.map Video.id := by
          have h := mergeEntry_ids videos e
          rw [hme] at h
          exact h
        cases upd with
        | true =>
            simp only [parseMetadataVideo, hnf, if_false, Bool.false_eq_true,
              hme, if_true]
            rw [hids]
            exact hnd
        | false =>
            have hnomatch : ¬ ∃ w ∈ videos, w.id = e.id := by
              rw [← mergeEntry_found_iff videos e, hme]
              simp
            have hnotin : e.id ∉ videos.map Video.id := by
              intro hin
              obtain ⟨w, hwmem, hwid⟩ := List.mem_map.mp hin
              exact hnomatch ⟨w, hwmem, hwid⟩
            simp only [parseMetadataVideo, hnf, if_false, Bool.false_eq_true,
              hme, List.map_append, List.map_cons, List.map_nil,
              Video.new_id]
            rw [List.nodup_append]
            refine ⟨by rw [hids]; exact hnd, List.nodup_singleton _, ?_⟩
            intro x hx hx1
            rw [hids] at hx
            simp only [List.mem_singleton] at hx1
            subst hx1
            exact hnotin hx

/-- Coverage of an entry survives an ingestion step over an entry with a
different id. -/
theorem coveredBy_parse_step (videos : List Video) (e e2 : RawEntry)
    (hcov : coveredBy videos e) (hne : e.id ≠ e2.id) :
    coveredBy (parseMetadataVideo videos e2).1 e := by
  rcases hcov with hnf | ⟨w, hmem, hwid, hrefl⟩
  · exact Or.inl hnf
  · refine Or.inr ⟨w, ?_, hwid, hrefl⟩
    by_cases hnf2 : noFormats e2 = true
    · simpa [parseMetadataVideo, hnf2] using hmem
    · have hwne : w.id ≠ e2.id := by
        rw [hwid]
        exact hne
      have hm1 := mergeEntry_mem videos e2 w hmem hwne
      cases hme : mergeEntry videos e2 with
      | mk vs1 upd =>
          rw [hme] at hm1
          cases upd with
          | true => simpa [parseMetadataVideo, hnf2, hme] using hm1
          | false =>
              simp only [parseMetadataVideo, hnf2, if_false,
                Bool.false_eq_true, hme]
              exact List.mem_append.mpr (Or.inl hm1)

/-- When the update loop finds a match, the resulting bucket holds a
video with the entry's id that reflects the entry. -/
theorem mergeEntry_found_reflects (videos : List Video) (e : RawEntry)
    (h : (mergeEntry videos e).2 = true) :
    ∃ w ∈ (mergeEntry videos e).1, w.id = e.id ∧ w.reflects e := by
  induction videos with
  | nil => simp [mergeEntry] at h
  | cons x rest ih =>
      by_cases hx : x.id = e.id
      · refine ⟨x.update e, ?_, by rw [Video.update_id]; exact hx,
          Video.update_reflects x e⟩
        simp [mergeEntry, hx]
      · simp only [mergeEntry, if_neg hx] at h ⊢
        obtain ⟨w, hw, hwid, hwrefl⟩ := ih h
        exact ⟨w, List.mem_cons.mpr (Or.inr hw), hwid, hwrefl⟩

/-- After an ingestion step, the bucket covers the entry just
ingested. -/
theorem coveredBy_self_step (videos : List Video) (e : RawEntry) :
    coveredBy (parseMetadataVideo videos e).1 e := by
  by_cases hnf : noFormats e = true
  · exact Or.inl hnf
  · refine Or.inr ?_
    cases hme : mergeEntry videos e with
    | mk vs1 upd =>
        cases upd with
        | true =>
            have h := mergeEntry_found_reflects videos e (by rw [hme])
            rw [hme] at h
            simpa [parseMetadataVideo, hnf, hme] using h
        | false =>
            refine ⟨Video.new e, ?_, Video.new_id e, Video.new_reflects e⟩
            simp [parseMetadataVideo, hnf, hme]

/-- Coverage of an entry survives a whole ingestion pass over entries
with different ids. -/
theorem foldParse_covers_of_covered (rest : List RawEntry)
    (b : List Video) (e : RawEntry) (hcov : coveredBy b e)
    (hne : ∀ e2 ∈ rest, e.id ≠ e2.id) :
    coveredBy
      (rest.foldl (fun b2 en => (parseMetadataVideo b2 en).1) b) e := by
  induction rest generalizing b with
  | nil => simpa
  | cons e2 rest2 ih =>
      simp only [List.foldl_cons]
      exact ih _ (coveredBy_parse_step b e e2 hcov (hne e2 (by simp)))
        (fun x hx => hne x (by simp [hx]))

/-- A whole ingestion pass preserves duplicate-freeness of bucket ids. -/
theorem foldParse_ids_nodup (entries : List RawEntry) (b : List Video)
    (hnd : (b.map Video.id).Nodup) :
    (((entries.foldl (fun b2 en => (parseMetadataVideo b2 en).1) b)).map
        Video.id).Nodup := by
  induction entries generalizing b with
  | nil => simpa
  | cons e rest ih =>
      simp only [List.foldl_cons]
      exact ih _ (parseMetadataVideo_ids_nodup b e hnd)

/-- After a full ingestion pass over entries with pairwise-distinct ids,
the resulting bucket covers every entry of the pass. -/
theorem foldParse_covers (entries : List RawEntry) (b : List Video)
    (hE : (entries.map RawEntry.id).Nodup) :
    ∀ e ∈ entries,
      coveredBy (entries.foldl (fun b2 en => (parseMetadataVideo b2 en).1) b)
        e := by
  induction entries generalizing b with
  | nil => simp
  | cons e0 rest ih =>
      rw [List.map_cons, List.nodup_cons] at hE
      obtain ⟨h0, hrestnd⟩ := hE
      intro e he
      rcases List.mem_cons.mp he with rfl | hin
      · simp only [List.foldl_cons]
        refine foldParse_covers_of_covered rest _ e
          (coveredBy_self_step b e) ?_
        intro e2 he2 heq
        exact h0 (heq ▸ List.mem_map_of_mem RawEntry.id he2)
      · simp only [List.foldl_cons]
        exact ih _ hrestnd e hin

/-- A full ingestion pass over a bucket that already covers every entry
(and has duplicate-free ids) changes nothing. -/
theorem foldParse_eq_self (entries : List RawEntry) (b : List Video)
    (hnd : (b.map Video.id).Nodup) (hcov : ∀ e ∈ entries, coveredBy b e) :
    entries.foldl (fun b2 en => (parseMetadataVideo b2 en).1) b = b := by
  induction entries with
  | nil => rfl
  | cons e rest ih =>
      simp only [List.foldl_cons]
      rw [parseMetadataVideo_eq_self b e hnd (hcov e (by simp))]
      exact ih (fun x hx => hcov x (by simp [hx]))

/-- Coverage transfers to the sorted bucket. -/
theorem coveredBy_insertionSort (l : List Video) (e : RawEntry)
    (h : coveredBy l e) :
    coveredBy (List.insertionSort newestFirst l) e := by
  rcases h with hnf | ⟨w, hw, hid, hr⟩
  · exact Or.inl hnf
  · exact Or.inr ⟨w, (List.mem_insertionSort newestFirst).mpr hw, hid, hr⟩

/-- Duplicate-freeness of ids transfers to the sorted bucket. -/
theorem ids_nodup_insertionSort (l : List Video)
    (h : (l.map Video.id).Nodup) :
    ((List.insertionSort newestFirst l).map Video.id).Nodup := by
  have hperm := List.perm_insertionSort newestFirst l
  exact ((hperm.map Video.id).nodup_iff).mpr h

/-- C4 (amended): provided the snapshot's entries carry pairwise-distinct
ids and the bucket's video ids are duplicate-free (the store invariant),
ingesting the same raw snapshot twice in a row is idempotent — the
second `_parse_metadata` pass returns the bucket of the first pass
unchanged, so in particular no TimeTrackedValue history of any item
gains an entry on the second pass. -/
theorem c4_reingest_idempotent (videos : List Video)
    (entries : List RawEntry)
    (hE : (entries.map RawEntry.id).Nodup)
    (hB : (videos.map Video.id).Nodup) :
    parseMetadata (parseMetadata videos entries) entries
      = parseMetadata videos entries := by
  unfold parseMetadata
  rw [foldParse_eq_self entries _
    (ids_nodup_insertionSort _ (foldParse_ids_nodup entries videos hB))
    (fun e he =>
      coveredBy_insertionSort _ e (foldParse_covers entries videos hE e he))]
  exact List.Sorted.insertionSort_eq
    (List.sorted_insertionSort newestFirst _)

/-- Counterexample to C4 as stated: a snapshot whose two entries share
one id but carry different titles creates one video whose title history
has 2 entries after the first ingestion and 4 after the second — the
second ingestion of the same snapshot does add history entries. -/
theorem c4_duplicate_id_counterexample :
    ((parseMetadata [] [sampleEntry 1 "a", sampleEntry 1 "b"]).map
        (fun v => v.title.history.length)) = [2]
    ∧ ((parseMetadata (parseMetadata [] [sampleEntry 1 "a", sampleEntry 1 "b"])
          [sampleEntry 1 "a", sampleEntry 1 "b"]).map
        (fun v => v.title.history.length)) = [4]
    ∧ ((parseMetadata (parseMetadata [] [sampleEntry 1 "a", sampleEntry 1 "b"])
          [sampleEntry 1 "a", sampleEntry 1 "b"]).map
        (fun v => v.title.history.length))
      ≠ ((parseMetadata [] [sampleEntry 1 "a", sampleEntry 1 "b"]).map
        (fun v => v.title.history.length)) := by
  refine ⟨by decide, by decide, by decide⟩

/-- Witness for `c4_reingest_idempotent`: a concrete snapshot with two
distinct-id entries, ingested twice into an empty bucket, leaves the
bucket of the first pass unchanged. -/
theorem c4_reingest_idempotent_witness :
    parseMetadata (parseMetadata [] [sampleEntry 1 "a", sampleEntry 2 "b"])
        [sampleEntry 1 "a", sampleEntry 2 "b"]
      = parseMetadata [] [sampleEntry 1 "a", sampleEntry 2 "b"] :=
  c4_reingest_idempotent [] [sampleEntry 1 "a", sampleEntry 2 "b"]
    (by decide) (by decide)

/-- C7: `_report_deleted` flags and reports exactly the videos whose
deleted flag currently reads false and which were not confirmed present
during the pass; a flagged video's deleted flag then reads true, so on a
later pass (where the freshly loaded item starts unconfirmed) it is no
longer a deletion candidate and is neither re-flagged nor re-reported. -/
theorem c7_report_deleted_exactly_once (videos : List Video) (v : Video) :
    reportDeleted videos
      = (videos.map (fun w => if deletionCandidate w then flagDeleted w else w),
         (videos.filter deletionCandidate).map flagDeleted)
    ∧ (deletionCandidate v = true →
        (flagDeleted v).deleted.current = some true
        ∧ deletionCandidate (resetConfirmed (flagDeleted v)) = false) := by
  constructor
  · induction videos with
    | nil => rfl
    | cons w ws ih =>
        simp only [reportDeleted, ih, List.map_cons, List.filter_cons]
        by_cases h : deletionCandidate w <;> simp [h]
  · intro h
    refine ⟨by simp [flagDeleted, Element.current_update], ?_⟩
    simp [deletionCandidate, resetConfirmed, flagDeleted, Element.current_update]

/-- Witness for `c7_report_deleted_exactly_once`: a concrete undownloaded,
unconfirmed video is reported and flagged by a pass, and after a reload
it is no longer a deletion candidate. -/
theorem c7_report_deleted_exactly_once_witness :
    (flagDeleted (sampleVideo 5)).deleted.current = some true
    ∧ deletionCandidate (resetConfirmed (flagDeleted (sampleVideo 5))) = false
    ∧ (reportDeleted [sampleVideo 5]).2 = [flagDeleted (sampleVideo 5)] := by
  refine ⟨((c7_report_deleted_exactly_once [] (sampleVideo 5)).2 (by decide)).1,
    ((c7_report_deleted_exactly_once [] (sampleVideo 5)).2 (by decide)).2, ?_⟩
  rw [(c7_report_deleted_exactly_once [sampleVideo 5] (sampleVideo 5)).1]
  decide

/-- The update loop finds no match when no video has the entry's id. -/
theorem mergeEntry_not_found (videos : List Video) (entry : RawEntry)
    (h : ∀ w ∈ videos, w.id ≠ entry.id) :
    mergeEntry videos entry = (videos, false) := by
  induction videos with
  | nil => rfl
  | cons v rest ih =>
      have hv : v.id ≠ entry.id := h v (by simp)
      simp only [mergeEntry, if_neg hv, ih (fun w hw => h w (by simp [hw]))]

/-- The update loop updates exactly the first video whose id matches. -/
theorem mergeEntry_found (pre post : List Video) (v : Video)
    (entry : RawEntry) (hpre : ∀ w ∈ pre, w.id ≠ entry.id)
    (hv : v.id = entry.id) :
    mergeEntry (pre ++ v :: post) entry
      = (pre ++ v.update entry :: post, true) := by
  induction pre with
  | nil => simp [mergeEntry, hv]
  | cons w ws ih =>
      have hw : w.id ≠ entry.id := hpre w (by simp)
      have ih2 := ih (fun x hx => hpre x (by simp [hx]))
      simp [mergeEntry, if_neg hw, ih2]

/-- C8: merge-or-create over one snapshot entry: an entry without a
non-empty format list leaves the bucket unchanged and reports nothing;
when some video in the bucket has the entry's id, the first such video is
updated in place and nothing is appended or reported as added; otherwise
exactly one new video is appended at the end and reported as newly
added. -/
theorem c8_merge_or_create (videos pre post : List Video) (v : Video)
    (entry : RawEntry) :
    (noFormats entry = true → parseMetadataVideo videos entry = (videos, none))
    ∧ (noFormats entry = false → videos = pre ++ v :: post →
        (∀ w ∈ pre, w.id ≠ entry.id) → v.id = entry.id →
        parseMetadataVideo videos entry = (pre ++ v.update entry :: post, none))
    ∧ (noFormats entry = false → (∀ w ∈ videos, w.id ≠ entry.id) →
        parseMetadataVideo videos entry
          = (videos ++ [Video.new entry], some (Video.new entry))) := by
  refine ⟨?_, ?_, ?_⟩
  · intro h
    simp [parseMetadataVideo, h]
  · intro h hv hpre hid
    subst hv
    simp [parseMetadataVideo, h, mergeEntry_found pre post v entry hpre hid]
  · intro h hall
    simp [parseMetadataVideo, h, mergeEntry_not_found videos entry hall]

/-- Witness for `c8_merge_or_create`: on a concrete one-video bucket, a
format-less entry is skipped, an entry with the resident id updates in
place, and an entry with a fresh id appends exactly one new video. -/
theorem c8_merge_or_create_witness :
    parseMetadataVideo [sampleVideo 2] sampleEntryNoFormats
      = ([sampleVideo 2], none)
    ∧ parseMetadataVideo [sampleVideo 2] (sampleEntry 2 "changed")
      = ([(sampleVideo 2).update (sampleEntry 2 "changed")], none)
    ∧ parseMetadataVideo [sampleVideo 2] (sampleEntry 3 "fresh")
      = ([sampleVideo 2, Video.new (sampleEntry 3 "fresh")],
          some (Video.new (sampleEntry 3 "fresh"))) := by
  refine ⟨?_, ?_, ?_⟩
  · exact (c8_merge_or_create [sampleVideo 2] [] [] (sampleVideo 2)
      sampleEntryNoFormats).1 (by decide)
  · exact (c8_merge_or_create [sampleVideo 2] [] [] (sampleVideo 2)
      (sampleEntry 2 "changed")).2.1 (by decide) rfl (by decide) (by decide)
  · exact (c8_merge_or_create [sampleVideo 2] [] [] (sampleVideo 2)
      (sampleEntry 3 "fresh")).2.2 (by decide) (by decide)

/-- C10: `commit` always ends with the primary file holding the encoded
archive; when a prior primary file exists its content is first preserved
into the backup (with the dated comment header), and when none exists the
backup step is silently skipped. -/
theorem c10_commit_backup (a : Archive) (fs : FsState) (now : String) :
    (commitStep a fs now).yarkJson = some (Archive.toDict a)
    ∧ (∀ j, fs.yarkJson = some j →
        (commitStep a fs now).yarkBak
          = some ("// Backup of a Yark archive, dated " ++ now, j))
    ∧ (fs.yarkJson = none → (commitStep a fs now).yarkBak = fs.yarkBak) := by
  refine ⟨rfl, ?_, ?_⟩
  · intro j hj
    simp [commitStep, backupStep, hj]
  · intro h
    simp [commitStep, backupStep, h]

/-- Witness for `c10_commit_backup`: committing over an existing primary
file backs it up; committing with no prior primary file skips the backup
but still writes the primary file. -/
theorem c10_commit_backup_witness :
    (commitStep sampleArchive
        ⟨some (Archive.toDict sampleArchive), none⟩ "d").yarkBak
      = some ("// Backup of a Yark archive, dated d",
          Archive.toDict sampleArchive)
    ∧ (commitStep sampleArchive ⟨none, none⟩ "d").yarkBak = none
    ∧ (commitStep sampleArchive ⟨none, none⟩ "d").yarkJson
      = some (Archive.toDict sampleArchive) :=
  ⟨(c10_commit_backup sampleArchive
      ⟨some (Archive.toDict sampleArchive), none⟩ "d").2.1 _ rfl,
   (c10_commit_backup sampleArchive ⟨none, none⟩ "d").2.2 rfl,
   (c10_commit_backup sampleArchive ⟨none, none⟩ "d").1⟩

end Yark
